import Mathlib

/-!
Shallow embedding of the dot-js frontend framework core
(`h`, `render`, listener cleanup, `mount`/`rerender`, `useState`,
and the router), together with theorems checking the specification's
claims against it.  Definitions are transliterated from the JavaScript
source; JavaScript dynamic values are modelled by `JSVal`, the DOM by
`DNode`, and the module-level mutable globals by the record `Fw`.
-/

namespace DotJs

/-- A JavaScript runtime value, as far as the framework inspects values:
`typeof` classification, truthiness, and equality.  Functions, plain
objects and arrays are identified by an opaque id; `emptyObject` stands
for a freshly created `{}` literal. -/
inductive JSVal where
  | undefV
  | null
  | boolean (b : Bool)
  | number (n : Int)
  | str (s : String)
  | fn (id : Nat)
  | obj (id : Nat)
  | arrV (id : Nat)
  | emptyObject
deriving DecidableEq, Repr

/-- JavaScript `typeof` on the modelled values. -/
def typeofV : JSVal → String
  | .undefV => "undefined"
  | .null => "object"
  | .boolean _ => "boolean"
  | .number _ => "number"
  | .str _ => "string"
  | .fn _ => "function"
  | .obj _ => "object"
  | .arrV _ => "object"
  | .emptyObject => "object"

/-- JavaScript truthiness on the modelled values. -/
def truthy : JSVal → Bool
  | .undefV => false
  | .null => false
  | .boolean b => b
  | .number n => n != 0
  | .str s => s != ""
  | .fn _ => true
  | .obj _ => true
  | .arrV _ => true
  | .emptyObject => true

/-! ### The state store

`stateStore` is a JavaScript array; reading out of range (or a hole)
yields `undefined`, and assigning past the end pads with holes. -/

/-- Read `stateStore[i]`: out-of-range reads give `undefined`. -/
def storeGet (store : List JSVal) (i : Nat) : JSVal :=
  store.getD i .undefV

/-- Assign `stateStore[i] = v`, padding with `undefined` holes when `i`
is past the end of the array. -/
def storeSet : List JSVal → Nat → JSVal → List JSVal
  | [], 0, v => [v]
  | [], n + 1, v => .undefV :: storeSet [] n v
  | _ :: xs, 0, v => v :: xs
  | x :: xs, n + 1, v => x :: storeSet xs n v

theorem storeGet_storeSet_self (store : List JSVal) (i : Nat) (v : JSVal) :
    storeGet (storeSet store i v) i = v := by
  induction store generalizing i with
  | nil =>
    induction i with
    | zero => rfl
    | succ n ih => simpa [storeSet, storeGet, List.getD] using ih
  | cons x xs ih =>
    cases i with
    | zero => rfl
    | succ n => simpa [storeSet, storeGet, List.getD] using ih n

theorem storeGet_storeSet_ne (store : List JSVal) (i j : Nat) (v : JSVal)
    (hij : j ≠ i) : storeGet (storeSet store i v) j = storeGet store j := by
  induction store generalizing i j with
  | nil =>
    induction i generalizing j with
    | zero =>
      cases j with
      | zero => exact absurd rfl hij
      | succ m => simp [storeSet, storeGet, List.getD]
    | succ n ih =>
      cases j with
      | zero => simp [storeSet, storeGet, List.getD]
      | succ m =>
        have := ih (j := m) (by omega)
        simpa [storeSet, storeGet, List.getD] using this
  | cons x xs ih =>
    cases i with
    | zero =>
      cases j with
      | zero => exact absurd rfl hij
      | succ m => simp [storeSet, storeGet, List.getD]
    | succ n =>
      cases j with
      | zero => simp [storeSet, storeGet, List.getD]
      | succ m =>
        have := ih n m (by omega)
        simpa [storeSet, storeGet, List.getD] using this

/-- One `useState(initialValue)` call at cursor position `idx`:
returns the updated store and the slot index captured by the returned
getter/setter pair.  Transliterated from the source: the slot is
(re)initialised exactly when `stateStore[stateIndex] === undefined`. -/
def useState (initialValue : JSVal) (store : List JSVal) (idx : Nat) :
    List JSVal × Nat :=
  let stateIndex := idx
  let store' :=
    if storeGet store stateIndex = .undefV then
      storeSet store stateIndex initialValue
    else store
  (store', stateIndex)

/-- The getter returned by `useState`: reads the slot's current value. -/
def getValue (slot : Nat) (store : List JSVal) : JSVal :=
  storeGet store slot

/-- Run the sequence of `useState` calls a component performs during one
render pass, starting at cursor `idx`; returns the store after the pass. -/
def runUseStates : List JSVal → List JSVal → Nat → List JSVal
  | [], store, _ => store
  | init :: rest, store, idx =>
    let (store', stateIndex) := useState init store idx
    runUseStates rest store' (stateIndex + 1)

theorem runUseStates_preserve_lt (inits : List JSVal) (store : List JSVal)
    (idx j : Nat) (hj : j < idx) :
    storeGet (runUseStates inits store idx) j = storeGet store j := by
  induction inits generalizing store idx with
  | nil => rfl
  | cons init rest ih =>
    simp only [runUseStates, useState]
    by_cases hcur : storeGet store idx = .undefV
    · rw [if_pos hcur, ih _ (idx + 1) (by omega),
        storeGet_storeSet_ne _ _ _ _ (by omega)]
    · rw [if_neg hcur]
      exact ih _ (idx + 1) (by omega)

theorem runUseStates_preserve_ne_undef (inits : List JSVal)
    (store : List JSVal) (idx j : Nat) (hj : storeGet store j ≠ .undefV) :
    storeGet (runUseStates inits store idx) j = storeGet store j := by
  induction inits generalizing store idx with
  | nil => rfl
  | cons init rest ih =>
    simp only [runUseStates, useState]
    by_cases hcur : storeGet store idx = .undefV
    · have hne : j ≠ idx := fun h => hj (h ▸ hcur)
      rw [if_pos hcur,
        ih (storeSet store idx init) (idx + 1)
          (by rw [storeGet_storeSet_ne _ _ _ _ hne]; exact hj),
        storeGet_storeSet_ne _ _ _ _ hne]
    · rw [if_neg hcur]
      exact ih store (idx + 1) hj

theorem runUseStates_getD (inits : List JSVal) (store : List JSVal)
    (idx k : Nat) (hk : k < inits.length) :
    storeGet (runUseStates inits store idx) (idx + k) =
      (if storeGet store (idx + k) = JSVal.undefV then inits.getD k JSVal.undefV
       else storeGet store (idx + k)) := by
  induction inits generalizing store idx k with
  | nil => simp at hk
  | cons init rest ih =>
    simp only [runUseStates, useState]
    cases k with
    | zero =>
      by_cases hcur : storeGet store idx = .undefV
      · simp only [Nat.add_zero, List.getD_cons_zero]
        rw [if_pos hcur, if_pos hcur,
          runUseStates_preserve_lt _ _ _ _ (by omega), storeGet_storeSet_self]
      · simp only [Nat.add_zero, List.getD_cons_zero]
        rw [if_neg hcur, if_neg hcur,
          runUseStates_preserve_lt _ _ _ _ (by omega)]
    | succ m =>
      have hm : m < rest.length := by simpa using hk
      by_cases hcur : storeGet store idx = .undefV
      · simp only [List.getD_cons_succ]
        have hne : idx + 1 + m ≠ idx := by omega
        have hih := ih (storeSet store idx init) (idx + 1) m hm
        rw [storeGet_storeSet_ne _ _ _ _ hne] at hih
        rw [if_pos hcur, show idx + (m + 1) = (idx + 1) + m by omega, hih]
      · simp only [List.getD_cons_succ]
        have hih := ih store (idx + 1) m hm
        rw [if_neg hcur, show idx + (m + 1) = (idx + 1) + m by omega, hih]

/-! ### Virtual nodes

The data model of §3: a virtual node has a tag, props and children;
children are virtual nodes, text/number primitives, or arrays thereof
(one nesting level, as the data model allows). -/

/-- A prop value: literal attribute values, or a function (callable),
identified by an opaque id. -/
inductive PropVal where
  | pstr (s : String)
  | pnum (n : Int)
  | pbool (b : Bool)
  | handler (id : Nat)
deriving DecidableEq, Repr

mutual
/-- A virtual element node: tag name, props, children. -/
inductive VNode where
  | mk (tag : String) (props : List (String × PropVal)) (children : List VChild)

/-- A non-array child: text, number, or a nested virtual node. -/
inductive VBase where
  | btext (s : String)
  | bnum (n : Int)
  | bnode (v : VNode)

/-- One entry of a `children` sequence: a base child or an array of
base children (to be flattened by one level by the renderer). -/
inductive VChild where
  | base (b : VBase)
  | carr (xs : List VBase)
end

/-- Character-list test that one list begins with another (used to
model `String.prototype.startsWith`). -/
def charsBeginWith : List Char → List Char → Bool
  | _, [] => true
  | [], _ :: _ => false
  | c :: cs, p :: ps => c == p && charsBeginWith cs ps

/-- JavaScript `s.startsWith(pre)`. -/
def jsStartsWith (s pre : String) : Bool :=
  charsBeginWith s.data pre.data

/-- ASCII lower-casing of one character, as `toLowerCase` acts on the
handler keys the framework inspects. -/
def lowerChar (c : Char) : Char :=
  if 'A' ≤ c ∧ c ≤ 'Z' then Char.ofNat (c.toNat + 32) else c

/-- JavaScript `s.toLowerCase()` on the modelled (ASCII) keys. -/
def jsToLower (s : String) : String :=
  ⟨s.data.map lowerChar⟩

/-- JavaScript `s.slice(n)` for a non-negative start index. -/
def jsSlice (s : String) (n : Nat) : String :=
  ⟨s.data.drop n⟩

/-- String coercion applied by `setAttribute` to a prop value
(standard attribute semantics; a function value stringifies to its
source text, modelled as an opaque rendering). -/
def propToString : PropVal → String
  | .pstr s => s
  | .pnum n => toString n
  | .pbool b => if b then "true" else "false"
  | .handler id => "function " ++ toString id

/-! ### The real DOM and the listener registry

An element carries its attached listeners (as `addEventListener`
leaves them: duplicate event/handler pairs collapse) and its entry in
the `activeEventListeners` WeakMap, keyed by node identity, hence
stored on the node itself. -/

/-- A real DOM node: a text node or an element with tag, attributes,
currently attached listeners, its listener-registry entry, and child
nodes. -/
inductive DNode where
  | dtext (s : String)
  | delem (tag : String) (attrs : List (String × String))
      (listeners : List (String × Nat))
      (registry : Option (List (String × Nat)))
      (children : List DNode)

/-- DOM `setAttribute`: overwrite in place when the attribute exists,
otherwise append. -/
def setAttr : List (String × String) → String → String → List (String × String)
  | [], k, v => [(k, v)]
  | (k', v') :: rest, k, v =>
    if k' = k then (k', v) :: rest else (k', v') :: setAttr rest k v

/-- DOM `addEventListener`: adding an already-attached event/handler
pair is a no-op. -/
def addListener (ls : List (String × Nat)) (e : String) (hid : Nat) :
    List (String × Nat) :=
  if (e, hid) ∈ ls then ls else ls ++ [(e, hid)]

/-- The prop loop of `render`: walk the props in order, attaching a
listener (and recording it in the registry list) for every key starting
with `on` whose value is a function, and setting an attribute otherwise. -/
def applyProps : List (String × PropVal) → List (String × String) →
    List (String × Nat) → List (String × Nat) →
    List (String × String) × List (String × Nat) × List (String × Nat)
  | [], attrs, ls, regs => (attrs, ls, regs)
  | (key, .handler hid) :: rest, attrs, ls, regs =>
    if jsStartsWith key "on" then
      let eventName := jsSlice (jsToLower key) 2
      applyProps rest attrs (addListener ls eventName hid)
        (regs ++ [(eventName, hid)])
    else
      applyProps rest (setAttr attrs key (propToString (.handler hid))) ls regs
  | (key, value) :: rest, attrs, ls, regs =>
    applyProps rest (setAttr attrs key (propToString value)) ls regs

mutual
/-- The renderer on an element virtual node: create the element, apply
the props (attaching listeners and recording them in the registry),
render the flattened children in order. -/
def render : VNode → DNode
  | .mk tag props children =>
    let applied := applyProps props [] [] []
    .delem tag applied.1 applied.2.1
      (if applied.2.2 = [] then none else some applied.2.2)
      (renderChildren children)

/-- Render one entry of a `children` sequence after `children.flat()`:
an array entry contributes its elements in order. -/
def renderChildren : List VChild → List DNode
  | [] => []
  | .base b :: rest => renderBase b :: renderChildren rest
  | .carr xs :: rest => renderBases xs ++ renderChildren rest

/-- Render a list of base children in order. -/
def renderBases : List VBase → List DNode
  | [] => []
  | b :: bs => renderBase b :: renderBases bs

/-- Render a base child: primitives become text nodes (numbers coerced
to their string representation), nodes render recursively. -/
def renderBase : VBase → DNode
  | .btext s => .dtext s
  | .bnum n => .dtext (toString n)
  | .bnode v => render v
end

/-- `children.flat()`: flatten the children sequence by exactly one
nesting level. -/
def flattenChildren : List VChild → List VBase
  | [] => []
  | .base b :: rest => b :: flattenChildren rest
  | .carr xs :: rest => xs ++ flattenChildren rest

theorem renderChildren_eq_flatten (cs : List VChild) :
    renderChildren cs = renderBases (flattenChildren cs) := by
  induction cs with
  | nil => rfl
  | cons c rest ih =>
    cases c with
    | base b => simp [renderChildren, flattenChildren, renderBases, ih]
    | carr xs =>
      simp only [renderChildren, flattenChildren, ih]
      induction xs with
      | nil => rfl
      | cons x xs ihx => simp [renderBases, ihx]

mutual
/-- `cleanupEventListeners`: detach every registered listener from the
node, drop its registry entry, and recurse into the element children. -/
def cleanupEventListeners : DNode → DNode
  | .dtext s => .dtext s
  | .delem tag attrs ls reg children =>
    let ls' := match reg with
      | some regs => regs.foldl (fun acc r => acc.erase r) ls
      | none => ls
    .delem tag attrs ls' none (cleanupList children)

/-- Recursive cleanup over a child list (text nodes carry no listeners
and are untouched). -/
def cleanupList : List DNode → List DNode
  | [] => []
  | d :: ds => cleanupEventListeners d :: cleanupList ds
end

/-! ### Process-wide framework state

The module-level globals: the active render source and container, the
container's current content, the state store and cursor, the route
table, the current route, the host location, plus an instrumentation
counter of `rerender` invocations (for stating scheduling claims). -/

/-- What can be passed to `mount` and stored in `currentRenderFunction`:
a component (a function performing a fixed sequence of `useState` calls
and building a virtual node from the slot values it read), or a static
virtual node. -/
inductive RenderSource where
  | comp (inits : List JSVal) (view : List JSVal → VNode)
  | static (v : VNode)

/-- A value registered in the route table: a component function or a
virtual-node object. -/
inductive RouteVal where
  | fnV (f : Unit → VNode)
  | objV (v : VNode)

/-- The framework's module-level mutable state. -/
structure Fw where
  currentRenderFunction : Option RenderSource
  currentContainer : Bool
  containerChildren : List DNode
  stateStore : List JSVal
  currentStateIndex : Nat
  routes : List (String × RouteVal)
  currentRoute : String
  location : String
  rerenderCalls : Nat

/-- The values the component's body reads back through the getters
during one render pass whose `useState` calls start at cursor 0. -/
def passValues (inits store : List JSVal) : List JSVal :=
  (List.range inits.length).map fun k => storeGet (runUseStates inits store 0) k

/-- Resolve the active render source to a virtual node with the state
cursor freshly reset to 0 (`typeof renderFunction === 'function' ?
renderFunction() : renderFunction`): a component runs its `useState`
calls against the store and builds its view; a static node is returned
as is.  Also returns the store and cursor after the pass. -/
def resolveSource : RenderSource → List JSVal → VNode × List JSVal × Nat
  | .static v, store => (v, store, 0)
  | .comp inits view, store =>
    (view (passValues inits store), runUseStates inits store 0, inits.length)

/-- The initial framework state (no active render target, empty store,
empty route table, route seeded from the document's root path). -/
def initFw : Fw :=
  { currentRenderFunction := none
    currentContainer := false
    containerChildren := []
    stateStore := []
    currentStateIndex := 0
    routes := []
    currentRoute := "/"
    location := "/"
    rerenderCalls := 0 }

/-- `mount(renderFunction, container)`: record the active render source
and container, clean up the listeners of the container's current
content, clear the container, reset the state cursor, resolve the
source and render the result into the container. -/
def mount (src : RenderSource) (g : Fw) : Fw :=
  let g1 := { g with currentRenderFunction := some src, currentContainer := true }
  let g2 := { g1 with containerChildren := cleanupList g1.containerChildren }
  let g3 := { g2 with containerChildren := [] }
  let resolved := resolveSource src g3.stateStore
  { g3 with
    stateStore := resolved.2.1
    currentStateIndex := resolved.2.2
    containerChildren := [render resolved.1] }

/-- `rerender()`: bump the invocation counter; when a render source and
container are active, clean up the container's listeners, clear it,
reset the state cursor, resolve the active source and render it afresh;
otherwise do nothing. -/
def rerender (g : Fw) : Fw :=
  let g0 := { g with rerenderCalls := g.rerenderCalls + 1 }
  match g0.currentRenderFunction, g0.currentContainer with
  | some src, true =>
    let g2 := { g0 with containerChildren := cleanupList g0.containerChildren }
    let g3 := { g2 with containerChildren := [] }
    let resolved := resolveSource src g3.stateStore
    { g3 with
      stateStore := resolved.2.1
      currentStateIndex := resolved.2.2
      containerChildren := [render resolved.1] }
  | _, _ => g0

/-- The setter returned by `useState` for slot `slot`: store the new
value, then trigger a full re-render. -/
def setValue (slot : Nat) (newValue : JSVal) (g : Fw) : Fw :=
  rerender { g with stateStore := storeSet g.stateStore slot newValue }

/-! ### Router -/

/-- Route-table lookup (JavaScript object property access, exact string
match). -/
def routesLookup : List (String × RouteVal) → String → Option RouteVal
  | [], _ => none
  | (k, v) :: rest, s => if k = s then some v else routesLookup rest s

/-- Route-table assignment (`routes[path] = component`): overwrite an
existing key, otherwise append. -/
def routeInsert : List (String × RouteVal) → String → RouteVal →
    List (String × RouteVal)
  | [], p, c => [(p, c)]
  | (k, v) :: rest, p, c =>
    if k = p then (k, c) :: rest else (k, v) :: routeInsert rest p c

/-- `addRoute(path, component)` on an already-validated path/component:
register the component under the exact-match key. -/
def addRoute (path : String) (component : RouteVal) (g : Fw) : Fw :=
  { g with routes := routeInsert g.routes path component }

/-- `getCurrentRoute()`. -/
def getCurrentRoute (g : Fw) : String :=
  g.currentRoute

/-- `navigate(path)`: validate that the argument is a truthy string
starting with `/` (else fail, touching nothing); then set the current
route, push the new location, and trigger a re-render.  Returns the
resulting state and the error message when validation failed. -/
def navigate (path : JSVal) (g : Fw) : Fw × Option String :=
  match path with
  | .str s =>
    if s = "" then (g, some "navigate(): path must be a non-empty string")
    else if ¬ jsStartsWith s "/" then
      (g, some "navigate(): path must start with \"/\"")
    else
      (rerender { g with currentRoute := s, location := s }, none)
  | _ => (g, some "navigate(): path must be a non-empty string")

/-- The fixed not-found tree the router falls back to:
`h('div', {}, h('h1', {}, '404 - Page Not Found'))`. -/
def notFoundVNode : VNode :=
  .mk "div" [] [.base (.bnode (.mk "h1" [] [.base (.btext "404 - Page Not Found")]))]

/-- `Router()`: look up the current route in the route table; invoke a
function component, return an object component directly, and fall back
to the fixed not-found tree when nothing is registered. -/
def Router (g : Fw) : VNode :=
  match routesLookup g.routes g.currentRoute with
  | some (.fnV f) => f ()
  | some (.objV v) => v
  | none => notFoundVNode

/-! ### Call sequences -/

/-- One public call in a mount/rerender sequence. -/
inductive Op where
  | mountOp (src : RenderSource)
  | rerenderOp

/-- Run a sequence of mount/rerender calls from a given state. -/
def runOps : List Op → Fw → Fw
  | [], g => g
  | .mountOp src :: rest, g => runOps rest (mount src g)
  | .rerenderOp :: rest, g => runOps rest (rerender g)

/-! ### The hyperscript helper `h`

`h` is modelled at the level of raw JavaScript values, since its
validation inspects arbitrary arguments. -/

/-- The object `h` returns: `{ type, props, children }`. -/
structure RawVNode where
  type : JSVal
  props : JSVal
  children : List JSVal
deriving DecidableEq, Repr

/-- `h(type, props = {}, ...children)`: validate `type` (truthy, and a
string or function) and `props` (`null` or `typeof 'object'`; an
omitted or `undefined` argument takes the `{}` default), then build
`{ type, props: props || {}, children }` with the children arguments
verbatim and in order. -/
def h (type : JSVal) (props : JSVal) (children : List JSVal) :
    Except String RawVNode :=
  let props := if props = JSVal.undefV then JSVal.emptyObject else props
  if ¬ truthy type ∨ (typeofV type ≠ "string" ∧ typeofV type ≠ "function") then
    .error "h(): type must be a non-empty string or function"
  else if props ≠ JSVal.null ∧ typeofV props ≠ "object" then
    .error "h(): props must be an object or null"
  else
    .ok { type := type
          props := if truthy props then props else JSVal.emptyObject
          children := children }

/-- Whether an `h` call succeeded. -/
def hOk (r : Except String RawVNode) : Bool :=
  match r with
  | .ok _ => true
  | .error _ => false

/-- Spec-side validity of the `type` argument, following the claim's
words: a non-empty tag-name string or a callable. -/
def specTypeValid : JSVal → Bool
  | .str s => s ≠ ""
  | .fn _ => true
  | _ => false

/-- Spec-side invalidity of the `props` argument, following the claim's
words: present (not absent/`undefined`) and non-null, but not an
object-like mapping. -/
def specPropsInvalid (p : JSVal) : Bool :=
  p ≠ .undefV && p ≠ .null && typeofV p ≠ "object"

/-! ### Listener bookkeeping observations (for the symmetry claim) -/

mutual
/-- All event listeners currently attached to a real node and its
descendants, as event-name/handler pairs. -/
def domListeners : DNode → List (String × Nat)
  | .dtext _ => []
  | .delem _ _ ls _ children => ls ++ domListenersList children

/-- Attached listeners over a list of real nodes. -/
def domListenersList : List DNode → List (String × Nat)
  | [] => []
  | d :: ds => domListeners d ++ domListenersList ds
end

/-- The listeners a props mapping declares: the `on`-prefixed keys with
callable values, as derived event-name/handler pairs. -/
def declaredOfProps : List (String × PropVal) → List (String × Nat)
  | [] => []
  | (key, .handler hid) :: rest =>
    if jsStartsWith key "on" then
      (jsSlice (jsToLower key) 2, hid) :: declaredOfProps rest
    else declaredOfProps rest
  | (_, _) :: rest => declaredOfProps rest

mutual
/-- All listeners a virtual-node tree declares. -/
def declListeners : VNode → List (String × Nat)
  | .mk _ props children => declaredOfProps props ++ declListenersChildren children

/-- Declared listeners over a children sequence. -/
def declListenersChildren : List VChild → List (String × Nat)
  | [] => []
  | .base b :: rest => declListenersBase b ++ declListenersChildren rest
  | .carr xs :: rest => declListenersBases xs ++ declListenersChildren rest

/-- Declared listeners over a list of base children. -/
def declListenersBases : List VBase → List (String × Nat)
  | [] => []
  | b :: bs => declListenersBase b ++ declListenersBases bs

/-- Declared listeners of one base child. -/
def declListenersBase : VBase → List (String × Nat)
  | .btext _ => []
  | .bnum _ => []
  | .bnode v => declListeners v
end

/-! ### Structural readback (for the round-trip claim) -/

/-- The structural content of a real subtree: tag names, attribute
values and text content, listeners and registry entries erased. -/
inductive SNode where
  | stext (s : String)
  | selem (tag : String) (attrs : List (String × String)) (children : List SNode)

mutual
/-- Read back a real node's structural content. -/
def readBack : DNode → SNode
  | .dtext s => .stext s
  | .delem tag attrs _ _ children => .selem tag attrs (readBackList children)

/-- Read back a list of real nodes. -/
def readBackList : List DNode → List SNode
  | [] => []
  | d :: ds => readBack d :: readBackList ds
end

mutual
/-- The structural content of a source virtual-node tree, per the
claim's words: tag names, attribute values (with the standard string
coercion), text content, in order, with children arrays flattened by
exactly one nesting level. -/
def vnodeStruct : VNode → SNode
  | .mk tag props children =>
    .selem tag (props.map fun p => (p.1, propToString p.2))
      (vnodeStructChildren children)

/-- Structural content of a children sequence, flattened one level. -/
def vnodeStructChildren : List VChild → List SNode
  | [] => []
  | .base b :: rest => vnodeStructBase b :: vnodeStructChildren rest
  | .carr xs :: rest => vnodeStructBases xs ++ vnodeStructChildren rest

/-- Structural content of a list of base children. -/
def vnodeStructBases : List VBase → List SNode
  | [] => []
  | b :: bs => vnodeStructBase b :: vnodeStructBases bs

/-- Structural content of one base child. -/
def vnodeStructBase : VBase → SNode
  | .btext s => .stext s
  | .bnum n => .stext (toString n)
  | .bnode v => vnodeStruct v
end

/-- No prop of the mapping is an event handler (a key starting with
`on` whose value is callable). -/
def propsNoHandlers (props : List (String × PropVal)) : Bool :=
  props.all fun p =>
    match p.2 with
    | .handler _ => !(jsStartsWith p.1 "on")
    | _ => true

mutual
/-- No prop anywhere in the tree is an event handler (an `on`-prefixed
key with a callable value). -/
def noHandlers : VNode → Bool
  | .mk _ props children =>
    propsNoHandlers props && noHandlersChildren children

/-- Handler-freedom over a children sequence. -/
def noHandlersChildren : List VChild → Bool
  | [] => true
  | .base b :: rest => noHandlersBase b && noHandlersChildren rest
  | .carr xs :: rest => noHandlersBases xs && noHandlersChildren rest

/-- Handler-freedom over a list of base children. -/
def noHandlersBases : List VBase → Bool
  | [] => true
  | b :: bs => noHandlersBase b && noHandlersBases bs

/-- Handler-freedom of one base child. -/
def noHandlersBase : VBase → Bool
  | .btext _ => true
  | .bnum _ => true
  | .bnode v => noHandlers v
end

mutual
/-- Every props mapping in the tree has pairwise-distinct keys, as
JavaScript object literals guarantee. -/
def wfPropKeys : VNode → Bool
  | .mk _ props children =>
    (props.map Prod.fst).Nodup && wfPropKeysChildren children

/-- Key-uniqueness over a children sequence. -/
def wfPropKeysChildren : List VChild → Bool
  | [] => true
  | .base b :: rest => wfPropKeysBase b && wfPropKeysChildren rest
  | .carr xs :: rest => wfPropKeysBases xs && wfPropKeysChildren rest

/-- Key-uniqueness over a list of base children. -/
def wfPropKeysBases : List VBase → Bool
  | [] => true
  | b :: bs => wfPropKeysBase b && wfPropKeysBases bs

/-- Key-uniqueness of one base child. -/
def wfPropKeysBase : VBase → Bool
  | .btext _ => true
  | .bnum _ => true
  | .bnode v => wfPropKeys v
end

/-! ### Listener attach/declare correspondence -/

theorem mem_addListener (p : String × Nat) (ls : List (String × Nat))
    (e : String) (hid : Nat) :
    p ∈ addListener ls e hid ↔ p ∈ ls ∨ p = (e, hid) := by
  unfold addListener
  by_cases hmem : (e, hid) ∈ ls
  · rw [if_pos hmem]
    constructor
    · exact Or.inl
    · rintro (hp | hp)
      · exact hp
      · exact hp ▸ hmem
  · rw [if_neg hmem]
    simp

theorem mem_applyProps_listeners (props : List (String × PropVal))
    (attrs : List (String × String)) (ls regs : List (String × Nat))
    (p : String × Nat) :
    p ∈ (applyProps props attrs ls regs).2.1 ↔
      p ∈ ls ∨ p ∈ declaredOfProps props := by
  induction props generalizing attrs ls regs with
  | nil => simp [applyProps, declaredOfProps]
  | cons kv rest ih =>
    obtain ⟨key, value⟩ := kv
    cases value with
    | handler hid =>
      by_cases hon : jsStartsWith key "on" = true
      · simp only [applyProps, declaredOfProps, if_pos hon]
        rw [ih]
        rw [mem_addListener]
        simp only [List.mem_cons]
        tauto
      · simp only [applyProps, declaredOfProps, if_neg hon]
        exact ih _ _ _
    | pstr s => simpa only [applyProps, declaredOfProps] using ih _ _ _
    | pnum n => simpa only [applyProps, declaredOfProps] using ih _ _ _
    | pbool b => simpa only [applyProps, declaredOfProps] using ih _ _ _

theorem domListenersList_append (a b : List DNode) :
    domListenersList (a ++ b) = domListenersList a ++ domListenersList b := by
  induction a with
  | nil => rfl
  | cons d ds ih => simp [domListenersList, ih]

mutual
theorem mem_domListeners_render (v : VNode) (p : String × Nat) :
    p ∈ domListeners (render v) ↔ p ∈ declListeners v := by
  cases v with
  | mk tag props children =>
    simp only [render, domListeners, declListeners, List.mem_append]
    rw [mem_applyProps_listeners]
    simp only [List.not_mem_nil, false_or]
    exact or_congr Iff.rfl (mem_domListeners_renderChildren children p)

theorem mem_domListeners_renderChildren (cs : List VChild) (p : String × Nat) :
    p ∈ domListenersList (renderChildren cs) ↔ p ∈ declListenersChildren cs := by
  cases cs with
  | nil => simp [renderChildren, domListenersList, declListenersChildren]
  | cons c rest =>
    cases c with
    | base b =>
      simp only [renderChildren, domListenersList, declListenersChildren,
        List.mem_append]
      exact or_congr (mem_domListeners_renderBase b p)
        (mem_domListeners_renderChildren rest p)
    | carr xs =>
      simp only [renderChildren, declListenersChildren, domListenersList_append,
        List.mem_append]
      exact or_congr (mem_domListeners_renderBases xs p)
        (mem_domListeners_renderChildren rest p)

theorem mem_domListeners_renderBases (bs : List VBase) (p : String × Nat) :
    p ∈ domListenersList (renderBases bs) ↔ p ∈ declListenersBases bs := by
  cases bs with
  | nil => simp [renderBases, domListenersList, declListenersBases]
  | cons b rest =>
    simp only [renderBases, domListenersList, declListenersBases,
      List.mem_append]
    exact or_congr (mem_domListeners_renderBase b p)
      (mem_domListeners_renderBases rest p)

theorem mem_domListeners_renderBase (b : VBase) (p : String × Nat) :
    p ∈ domListeners (renderBase b) ↔ p ∈ declListenersBase b := by
  cases b with
  | btext s => simp [renderBase, domListeners, declListenersBase]
  | bnum n => simp [renderBase, domListeners, declListenersBase]
  | bnode v => exact mem_domListeners_render v p
end

/-! ### Round-trip correspondence -/

theorem setAttr_not_mem (attrs : List (String × String)) (k v : String)
    (h : k ∉ attrs.map Prod.fst) : setAttr attrs k v = attrs ++ [(k, v)] := by
  induction attrs with
  | nil => rfl
  | cons a rest ih =>
    simp only [List.map_cons, List.mem_cons] at h
    push_neg at h
    simp only [setAttr, if_neg (Ne.symm h.1), List.cons_append]
    rw [ih h.2]

theorem applyProps_noHandlers (props : List (String × PropVal))
    (attrs : List (String × String)) (ls regs : List (String × Nat))
    (hnh : propsNoHandlers props = true)
    (hnd : (props.map Prod.fst).Nodup)
    (hdisj : ∀ k ∈ props.map Prod.fst, k ∉ attrs.map Prod.fst) :
    applyProps props attrs ls regs =
      (attrs ++ props.map (fun p => (p.1, propToString p.2)), ls, regs) := by
  induction props generalizing attrs with
  | nil => simp [applyProps]
  | cons kv rest ih =>
    obtain ⟨key, value⟩ := kv
    simp only [propsNoHandlers, List.all_cons, Bool.and_eq_true] at hnh
    simp only [List.map_cons, List.nodup_cons] at hnd
    have hkey : key ∉ attrs.map Prod.fst := hdisj key (by simp)
    have hdisj' : ∀ k ∈ rest.map Prod.fst,
        k ∉ (attrs ++ [(key, propToString value)]).map Prod.fst := by
      intro k hk
      simp only [List.map_append, List.mem_append, List.map_cons,
        List.map_nil, List.mem_singleton]
      push_neg
      refine ⟨hdisj k (by simp [hk]), ?_⟩
      intro hkk
      exact hnd.1 (hkk ▸ hk)
    cases value with
    | handler hid =>
      have hon : jsStartsWith key "on" = false := by
        have := hnh.1
        simp only [Bool.not_eq_true'] at this
        exact this
      simp only [applyProps, hon, Bool.false_eq_true, if_false]
      rw [setAttr_not_mem _ _ _ hkey,
        ih (attrs ++ [(key, propToString (.handler hid))]) hnh.2 hnd.2 hdisj']
      simp
    | pstr s =>
      simp only [applyProps]
      rw [setAttr_not_mem _ _ _ hkey,
        ih (attrs ++ [(key, propToString (.pstr s))]) hnh.2 hnd.2 hdisj']
      simp
    | pnum n =>
      simp only [applyProps]
      rw [setAttr_not_mem _ _ _ hkey,
        ih (attrs ++ [(key, propToString (.pnum n))]) hnh.2 hnd.2 hdisj']
      simp
    | pbool b =>
      simp only [applyProps]
      rw [setAttr_not_mem _ _ _ hkey,
        ih (attrs ++ [(key, propToString (.pbool b))]) hnh.2 hnd.2 hdisj']
      simp

theorem readBackList_append (a b : List DNode) :
    readBackList (a ++ b) = readBackList a ++ readBackList b := by
  induction a with
  | nil => rfl
  | cons d ds ih => simp [readBackList, ih]

mutual
theorem readBack_render (v : VNode)
    (h1 : noHandlers v = true) (h2 : wfPropKeys v = true) :
    readBack (render v) = vnodeStruct v := by
  cases v with
  | mk tag props children =>
    simp only [noHandlers, Bool.and_eq_true] at h1
    simp only [wfPropKeys, Bool.and_eq_true, decide_eq_true_eq] at h2
    simp only [render, readBack, vnodeStruct]
    rw [applyProps_noHandlers props [] [] [] h1.1 h2.1 (by simp)]
    simp only [List.nil_append]
    rw [readBack_renderChildren children h1.2 h2.2]

theorem readBack_renderChildren (cs : List VChild)
    (h1 : noHandlersChildren cs = true) (h2 : wfPropKeysChildren cs = true) :
    readBackList (renderChildren cs) = vnodeStructChildren cs := by
  cases cs with
  | nil => rfl
  | cons c rest =>
    cases c with
    | base b =>
      simp only [noHandlersChildren, Bool.and_eq_true] at h1
      simp only [wfPropKeysChildren, Bool.and_eq_true] at h2
      simp only [renderChildren, readBackList, vnodeStructChildren]
      rw [readBack_renderBase b h1.1 h2.1,
        readBack_renderChildren rest h1.2 h2.2]
    | carr xs =>
      simp only [noHandlersChildren, Bool.and_eq_true] at h1
      simp only [wfPropKeysChildren, Bool.and_eq_true] at h2
      simp only [renderChildren, vnodeStructChildren, readBackList_append]
      rw [readBack_renderBases xs h1.1 h2.1,
        readBack_renderChildren rest h1.2 h2.2]

theorem readBack_renderBases (bs : List VBase)
    (h1 : noHandlersBases bs = true) (h2 : wfPropKeysBases bs = true) :
    readBackList (renderBases bs) = vnodeStructBases bs := by
  cases bs with
  | nil => rfl
  | cons b rest =>
    simp only [noHandlersBases, Bool.and_eq_true] at h1
    simp only [wfPropKeysBases, Bool.and_eq_true] at h2
    simp only [renderBases, readBackList, vnodeStructBases]
    rw [readBack_renderBase b h1.1 h2.1, readBack_renderBases rest h1.2 h2.2]

theorem readBack_renderBase (b : VBase)
    (h1 : noHandlersBase b = true) (h2 : wfPropKeysBase b = true) :
    readBack (renderBase b) = vnodeStructBase b := by
  cases b with
  | btext s => rfl
  | bnum n => rfl
  | bnode v => exact readBack_render v h1 h2
end

/-! ### Framework-state lemmas -/

theorem rerender_active (g : Fw) (src : RenderSource)
    (h1 : g.currentRenderFunction = some src) (h2 : g.currentContainer = true) :
    rerender g =
      { g with
        rerenderCalls := g.rerenderCalls + 1
        containerChildren := [render (resolveSource src g.stateStore).1]
        stateStore := (resolveSource src g.stateStore).2.1
        currentStateIndex := (resolveSource src g.stateStore).2.2 } := by
  obtain ⟨f, c, cc, ss, si, r, cr, l, rc⟩ := g
  simp only at h1 h2
  subst h1
  subst h2
  rfl

theorem rerender_rerenderCalls (g : Fw) :
    (rerender g).rerenderCalls = g.rerenderCalls + 1 := by
  obtain ⟨f, c, cc, ss, si, r, cr, l, rc⟩ := g
  cases f <;> cases c <;> rfl

theorem rerender_routes (g : Fw) : (rerender g).routes = g.routes := by
  obtain ⟨f, c, cc, ss, si, r, cr, l, rc⟩ := g
  cases f <;> cases c <;> rfl

theorem rerender_currentRoute (g : Fw) :
    (rerender g).currentRoute = g.currentRoute := by
  obtain ⟨f, c, cc, ss, si, r, cr, l, rc⟩ := g
  cases f <;> cases c <;> rfl

theorem rerender_location (g : Fw) : (rerender g).location = g.location := by
  obtain ⟨f, c, cc, ss, si, r, cr, l, rc⟩ := g
  cases f <;> cases c <;> rfl

theorem rerender_storeGet_preserve (g : Fw) (j : Nat)
    (hj : storeGet g.stateStore j ≠ .undefV) :
    storeGet (rerender g).stateStore j = storeGet g.stateStore j := by
  obtain ⟨f, c, cc, ss, si, r, cr, l, rc⟩ := g
  cases f with
  | none => cases c <;> rfl
  | some src =>
    cases c with
    | false => rfl
    | true =>
      cases src with
      | static v => rfl
      | comp inits view =>
        simpa [rerender, resolveSource] using
          runUseStates_preserve_ne_undef inits ss 0 j hj

theorem passValues_getD (inits store : List JSVal) (k : Nat)
    (hk : k < inits.length) :
    (passValues inits store).getD k JSVal.undefV =
      storeGet (runUseStates inits store 0) k := by
  unfold passValues
  rw [List.getD_eq_getElem?_getD, List.getElem?_map, List.getElem?_range hk]
  rfl

/-! ### Concrete scenarios used as witnesses and counterexamples -/

/-- A one-slot counter component: one `useState(1)` call, a trivial
view. -/
def cexView : List JSVal → VNode :=
  fun _ => .mk "div" [] [.base (.btext "x")]

/-- The render source mounting `cexView` with one slot initialised
to `1`. -/
def cexSrc : RenderSource :=
  .comp [.number 1] cexView

/-- The state after mounting the one-slot component into the empty
framework. -/
def cexG1 : Fw :=
  mount cexSrc initFw

/-- A static tree carrying an event handler, for the listener claims. -/
def demoTree : VNode :=
  .mk "div" [("className", .pstr "container")]
    [.base (.bnode (.mk "button" [("onClick", .handler 7)]
      [.base (.btext "Click me")]))]

/-- A static render source for the listener claims. -/
def demoSrc : RenderSource :=
  .static demoTree

/-- A handler-free tree with attributes, numbers and an array child,
for the round-trip claim. -/
def rtTree : VNode :=
  .mk "div" [("className", .pstr "container"), ("id", .pstr "main"),
      ("disabled", .pbool true)]
    [.base (.btext "Hello World"), .carr [.btext "a", .bnum 5],
     .base (.bnode (.mk "span" [("n", .pnum (-3))] []))]

/-- The observable components of the framework state: everything except
the instrumentation counter of `rerender` invocations. -/
def observables (g : Fw) :
    Option RenderSource × Bool × List DNode × List JSVal × Nat ×
      List (String × RouteVal) × String × String :=
  (g.currentRenderFunction, g.currentContainer, g.containerChildren,
    g.stateStore, g.currentStateIndex, g.routes, g.currentRoute, g.location)

/-! ### Claim theorems -/

/-- C1 (amended): for a mounted component, a render pass leaves each
state slot `k` holding the value it held before the pass — ignoring the
initial value passed again — provided that value is not `undefined`;
when the slot holds `undefined` (in particular on the first pass, when
it was never initialised), the `useState` call at position `k`
(re)stores the passed initial value.  The unqualified claim
("regardless of what value is currently stored") fails at a stored
`undefined`; see the counterexample. -/
theorem claim_C1_state_slots (g : Fw) (inits : List JSVal)
    (view : List JSVal → VNode) (k : Nat)
    (hsrc : g.currentRenderFunction = some (.comp inits view))
    (hcont : g.currentContainer = true) (hk : k < inits.length) :
    storeGet (rerender g).stateStore k =
      (if storeGet g.stateStore k = JSVal.undefV then inits.getD k JSVal.undefV
       else storeGet g.stateStore k) := by
  rw [rerender_active g _ hsrc hcont]
  simpa [resolveSource] using runUseStates_getD inits g.stateStore 0 k hk

/-- Witness for C1's theorem at a concrete mounted component. -/
theorem claim_C1_state_slots_witness :
    cexG1.currentRenderFunction =
        some (RenderSource.comp [JSVal.number 1] cexView) ∧
    cexG1.currentContainer = true ∧
    0 < ([JSVal.number 1] : List JSVal).length ∧
    storeGet (rerender cexG1).stateStore 0 =
      (if storeGet cexG1.stateStore 0 = JSVal.undefV then
        ([JSVal.number 1] : List JSVal).getD 0 JSVal.undefV
       else storeGet cexG1.stateStore 0) :=
  ⟨rfl, rfl, by decide,
    claim_C1_state_slots cexG1 [JSVal.number 1] cexView 0 rfl rfl (by decide)⟩

/-- Counterexample to C1 as stated: mount the one-slot component
(initial value `1`), then let its setter store `undefined`.  Entering
the triggered pass the slot stores `undefined`, yet the `useState` call
at that position returns `1` (the re-stored initial value), not the
stored `undefined` — so the getter does not return "whatever value is
currently stored ... regardless of what value is currently stored". -/
theorem claim_C1_cex :
    storeGet (storeSet cexG1.stateStore 0 JSVal.undefV) 0 = JSVal.undefV ∧
    getValue 0
        (runUseStates [JSVal.number 1]
          (storeSet cexG1.stateStore 0 JSVal.undefV) 0) = JSVal.number 1 ∧
    storeGet (setValue 0 JSVal.undefV cexG1).stateStore 0 = JSVal.number 1 ∧
    JSVal.number 1 ≠ JSVal.undefV :=
  ⟨rfl, rfl, rfl, by decide⟩

/-- C2: after any `rerender` following any sequence of `mount`/`rerender`
calls, the set of listeners attached to real nodes under the active
container is exactly the set the latest pass's virtual-node tree
declares via `on`-prefixed callable props — no listener from a prior
pass remains attached. -/
theorem claim_C2_listener_symmetry (ops : List Op) (src : RenderSource)
    (h1 : (runOps ops initFw).currentRenderFunction = some src)
    (h2 : (runOps ops initFw).currentContainer = true) :
    ∀ p : String × Nat,
      p ∈ domListenersList (rerender (runOps ops initFw)).containerChildren ↔
        p ∈ declListeners (resolveSource src (runOps ops initFw).stateStore).1 := by
  intro p
  rw [rerender_active _ _ h1 h2]
  simpa [domListenersList] using
    mem_domListeners_render (resolveSource src (runOps ops initFw).stateStore).1 p

/-- Witness for C2's theorem: mount a tree declaring one click handler,
then rerender. -/
theorem claim_C2_listener_symmetry_witness :
    (runOps [Op.mountOp demoSrc] initFw).currentRenderFunction = some demoSrc ∧
    (runOps [Op.mountOp demoSrc] initFw).currentContainer = true ∧
    (∀ p : String × Nat,
      p ∈ domListenersList
          (rerender (runOps [Op.mountOp demoSrc] initFw)).containerChildren ↔
        p ∈ declListeners
          (resolveSource demoSrc
            (runOps [Op.mountOp demoSrc] initFw).stateStore).1) :=
  ⟨rfl, rfl, claim_C2_listener_symmetry [Op.mountOp demoSrc] demoSrc rfl rfl⟩

/-- C3 (amended): a setter call unconditionally overwrites its slot and
then synchronously invokes `rerender` exactly once before returning
(no equality short-circuit, no batching); for every non-`undefined`
`newValue` the new value is still stored after the triggered pass and
the pass observes it through the slot's getter.  An `undefined`
`newValue` is re-initialised by the `useState` call at that position
during the triggered pass; see the counterexample. -/
theorem claim_C3_setter (slot : Nat) (v : JSVal) (g : Fw) :
    (setValue slot v g).rerenderCalls = g.rerenderCalls + 1 ∧
    setValue slot v g =
      rerender { g with stateStore := storeSet g.stateStore slot v } ∧
    (v ≠ JSVal.undefV →
      storeGet (setValue slot v g).stateStore slot = v) ∧
    (∀ inits view, g.currentRenderFunction = some (.comp inits view) →
      g.currentContainer = true →
      (setValue slot v g).containerChildren =
        [render (view (passValues inits (storeSet g.stateStore slot v)))] ∧
      (v ≠ JSVal.undefV → slot < inits.length →
        (passValues inits
          (storeSet g.stateStore slot v)).getD slot JSVal.undefV = v)) := by
  refine ⟨?_, rfl, ?_, ?_⟩
  · unfold setValue
    exact rerender_rerenderCalls _
  · intro hv
    unfold setValue
    rw [rerender_storeGet_preserve]
    · exact storeGet_storeSet_self _ _ _
    · simpa [storeGet_storeSet_self] using hv
  · intro inits view hsrc hcont
    constructor
    · unfold setValue
      rw [rerender_active _ (RenderSource.comp inits view) (by simpa using hsrc)
          (by simpa using hcont)]
      rfl
    · intro hv hk
      rw [passValues_getD _ _ _ hk,
        runUseStates_preserve_ne_undef _ _ _ _
          (by simpa [storeGet_storeSet_self] using hv)]
      exact storeGet_storeSet_self _ _ _

/-- Witness for C3's theorem: set slot 0 of the mounted one-slot
component to `7`. -/
theorem claim_C3_setter_witness :
    ((JSVal.number 7) ≠ JSVal.undefV ∧
      cexG1.currentRenderFunction =
        some (RenderSource.comp [JSVal.number 1] cexView) ∧
      cexG1.currentContainer = true ∧ 0 < ([JSVal.number 1] : List JSVal).length) ∧
    (setValue 0 (JSVal.number 7) cexG1).rerenderCalls =
        cexG1.rerenderCalls + 1 ∧
    setValue 0 (JSVal.number 7) cexG1 =
      rerender { cexG1 with
        stateStore := storeSet cexG1.stateStore 0 (JSVal.number 7) } ∧
    storeGet (setValue 0 (JSVal.number 7) cexG1).stateStore 0 =
        JSVal.number 7 ∧
    (passValues [JSVal.number 1]
        (storeSet cexG1.stateStore 0 (JSVal.number 7))).getD 0 JSVal.undefV =
      JSVal.number 7 := by
  have h := claim_C3_setter 0 (JSVal.number 7) cexG1
  have h4 := h.2.2.2 [JSVal.number 1] cexView rfl rfl
  exact ⟨⟨by decide, rfl, rfl, by decide⟩, h.1, h.2.1,
    h.2.2.1 (by decide), h4.2 (by decide) (by decide)⟩

/-- Counterexample to C3 as stated: calling the setter with `undefined`
on the mounted one-slot component does not leave `undefined` stored
once the setter returns — the triggered pass re-initialises the slot to
`1` and observes `1`, not the new value. -/
theorem claim_C3_cex :
    storeGet (setValue 0 JSVal.undefV cexG1).stateStore 0 ≠ JSVal.undefV ∧
    (passValues [JSVal.number 1]
        (storeSet cexG1.stateStore 0 JSVal.undefV)).getD 0 JSVal.undefV =
      JSVal.number 1 := by
  exact ⟨by decide, rfl⟩

/-- C4: `rerender()` leaves every observable component of the framework
state (active source and container, container content, state store and
cursor, route table, current route, location) unchanged when no render
source and container are active, and otherwise has exactly the
observable effect of the `mount` sequence run on the currently active
render source. -/
theorem claim_C4_rerender_mount (g : Fw) :
    observables (rerender g) =
      (match g.currentRenderFunction, g.currentContainer with
       | some src, true => observables (mount src g)
       | _, _ => observables g) := by
  obtain ⟨f, c, cc, ss, si, r, cr, l, rc⟩ := g
  cases f <;> cases c <;> rfl

/-- `render(vnode, container)` appends the rendered subtree to the
container's children. -/
def renderInto (v : VNode) (container : List DNode) : List DNode :=
  container ++ [render v]

theorem jsStartsWith_slash_ne_empty (s : String)
    (hs : jsStartsWith s "/" = true) : s ≠ "" := by
  intro he
  subst he
  simp [jsStartsWith, charsBeginWith] at hs

/-- Resolve a route-table entry the way `Router` does: invoke a
function component, return an object component directly. -/
def resolveRoute : RouteVal → VNode
  | .fnV f => f ()
  | .objV v => v

/-- Spec-side validity of a `navigate` argument, following the claim's
words: a non-empty string starting with `/`. -/
def pathValid : JSVal → Bool
  | .str s => jsStartsWith s "/"
  | _ => false

/-- C5: rendering a handler-free virtual-node tree (with the key
uniqueness JavaScript object literals guarantee) into an empty
container and reading back the container's structural content yields
exactly the source tree's tag names, attribute values and text content
in order; children sequences are flattened by exactly one nesting level
before being rendered in sequence order. -/
theorem claim_C5_round_trip (v : VNode)
    (h1 : noHandlers v = true) (h2 : wfPropKeys v = true) :
    readBackList (renderInto v []) = [vnodeStruct v] ∧
    ∀ cs, renderChildren cs = renderBases (flattenChildren cs) := by
  refine ⟨?_, renderChildren_eq_flatten⟩
  simp [renderInto, readBackList, readBack_render v h1 h2]

/-- Witness for C5's theorem at a concrete tree with attributes, text,
numbers and an array child. -/
theorem claim_C5_round_trip_witness :
    noHandlers rtTree = true ∧ wfPropKeys rtTree = true ∧
    readBackList (renderInto rtTree []) = [vnodeStruct rtTree] :=
  ⟨by decide, by decide,
    (claim_C5_round_trip rtTree (by decide) (by decide)).1⟩

/-- C6: on every valid `type` and valid (or absent/null) `props`, the
call `h(type, props, c1, c2)` returns exactly
`{type, props: props ?? \x7b\x7d, children: [c1, c2]}` with the
children arguments verbatim and in order.  The embedding of `h` is a
pure function — it mutates neither `props` nor the children arguments
and has no other side effect. -/
theorem claim_C6_h_construction (t p c1 c2 : JSVal)
    (ht : specTypeValid t = true) (hp : specPropsInvalid p = false) :
    h t p [c1, c2] =
      .ok { type := t
            props := if p = JSVal.null ∨ p = JSVal.undefV then JSVal.emptyObject
              else p
            children := [c1, c2] } := by
  cases t <;> cases p <;>
    simp_all [h, specTypeValid, specPropsInvalid, truthy, typeofV]

/-- Witness for C6's theorem at `h('div', null, 'a', 0)`. -/
theorem claim_C6_h_construction_witness :
    specTypeValid (JSVal.str "div") = true ∧
    specPropsInvalid JSVal.null = false ∧
    h (JSVal.str "div") JSVal.null [JSVal.str "a", JSVal.number 0] =
      .ok { type := JSVal.str "div"
            props := if JSVal.null = JSVal.null ∨ JSVal.null = JSVal.undefV then
                JSVal.emptyObject
              else JSVal.null
            children := [JSVal.str "a", JSVal.number 0] } :=
  ⟨by decide, by decide,
    claim_C6_h_construction (JSVal.str "div") JSVal.null (JSVal.str "a")
      (JSVal.number 0) (by decide) (by decide)⟩

/-- C7: `h` fails exactly when `type` is neither a non-empty string nor
a callable, or `props` is present and non-null but not object-like;
absent (`undefined`) or null `props` is accepted. -/
theorem claim_C7_h_validation (t p : JSVal) (cs : List JSVal) :
    hOk (h t p cs) = (specTypeValid t && !specPropsInvalid p) := by
  cases t
  case str s =>
    by_cases hse : s = "" <;> cases p <;>
      simp_all [h, hOk, specTypeValid, specPropsInvalid, truthy, typeofV]
  all_goals cases p <;>
    simp_all [h, hOk, specTypeValid, specPropsInvalid, truthy, typeofV]

/-- C8: `navigate(path)` fails exactly when the argument is not a
string starting with `/` (a string starting with `/` is automatically
non-empty); on a valid path it sets the current route to the path (so
`getCurrentRoute` reports it), updates the host location to the path,
and triggers `rerender` exactly once before returning. -/
theorem claim_C8_navigate (p : JSVal) (g : Fw) :
    (match p with
     | .str s =>
       if jsStartsWith s "/" = true then
         navigate p g =
           (rerender { g with currentRoute := s, location := s }, none) ∧
         getCurrentRoute (navigate p g).1 = s ∧
         (navigate p g).1.location = s ∧
         (navigate p g).1.rerenderCalls = g.rerenderCalls + 1
       else ((navigate p g).2).isSome = true
     | _ => ((navigate p g).2).isSome = true) := by
  cases p
  case str s =>
    dsimp only
    by_cases hs : jsStartsWith s "/" = true
    · have hne := jsStartsWith_slash_ne_empty s hs
      rw [if_pos hs]
      have hnav : navigate (.str s) g =
          (rerender { g with currentRoute := s, location := s }, none) := by
        simp [navigate, hne, hs]
      refine ⟨hnav, ?_, ?_, ?_⟩
      · rw [hnav]
        simp [getCurrentRoute, rerender_currentRoute]
      · rw [hnav]
        simp [rerender_location]
      · rw [hnav]
        simp [rerender_rerenderCalls]
    · rw [if_neg hs]
      by_cases he : s = ""
      · subst he
        simp [navigate]
      · simp [navigate, he, hs]
  all_goals simp [navigate]

/-- C9: `Router()` resolves the component registered under the current
route by exact string match (invoking it if callable, returning it
directly otherwise) and falls back to the fixed not-found tree when
nothing is registered — including after a `navigate` to an unregistered
path, after which `getCurrentRoute` reports that path; no error is
raised in either case. -/
theorem claim_C9_router (g : Fw) :
    Router g =
      (match routesLookup g.routes g.currentRoute with
       | some rv => resolveRoute rv
       | none => notFoundVNode) ∧
    (∀ s : String, jsStartsWith s "/" = true →
      routesLookup g.routes s = none →
      Router (navigate (.str s) g).1 = notFoundVNode ∧
      getCurrentRoute (navigate (.str s) g).1 = s) := by
  constructor
  · cases hlk : routesLookup g.routes g.currentRoute with
    | none => simp [Router, hlk]
    | some rv => cases rv <;> simp [Router, hlk, resolveRoute]
  · intro s hs hnone
    have hne := jsStartsWith_slash_ne_empty s hs
    have hnav : (navigate (.str s) g).1 =
        rerender { g with currentRoute := s, location := s } := by
      simp [navigate, hne, hs]
    rw [hnav]
    constructor
    · unfold Router
      rw [rerender_routes, rerender_currentRoute]
      simp only
      rw [hnone]
    · rw [getCurrentRoute, rerender_currentRoute]

/-- Witness for C9's theorem: navigate to the unregistered path
`/missing` with one route registered under `/`. -/
theorem claim_C9_router_witness :
    (jsStartsWith "/missing" "/" = true ∧
      routesLookup (addRoute "/" (RouteVal.objV demoTree) initFw).routes
        "/missing" = none) ∧
    Router (addRoute "/" (RouteVal.objV demoTree) initFw) =
      (match routesLookup (addRoute "/" (RouteVal.objV demoTree) initFw).routes
          (addRoute "/" (RouteVal.objV demoTree) initFw).currentRoute with
       | some rv => resolveRoute rv
       | none => notFoundVNode) ∧
    Router (navigate (.str "/missing")
        (addRoute "/" (RouteVal.objV demoTree) initFw)).1 = notFoundVNode ∧
    getCurrentRoute (navigate (.str "/missing")
        (addRoute "/" (RouteVal.objV demoTree) initFw)).1 = "/missing" := by
  have h := claim_C9_router (addRoute "/" (RouteVal.objV demoTree) initFw)
  have h2 := h.2 "/missing" (by decide) rfl
  exact ⟨⟨by decide, rfl⟩, h.1, h2.1, h2.2⟩

/-- C10: `navigate` validates before any mutation, so on every invalid
argument it fails leaving the whole state unchanged — current route,
host location, container content — and triggers no `rerender`. -/
theorem claim_C10_navigate_atomic (p : JSVal) (g : Fw)
    (hp : pathValid p = false) :
    (navigate p g).1 = g ∧ ((navigate p g).2).isSome = true ∧
    getCurrentRoute (navigate p g).1 = getCurrentRoute g ∧
    (navigate p g).1.location = g.location ∧
    (navigate p g).1.containerChildren = g.containerChildren ∧
    (navigate p g).1.rerenderCalls = g.rerenderCalls := by
  have hbase : (navigate p g).1 = g ∧ ((navigate p g).2).isSome = true := by
    cases p <;> simp_all [navigate, pathValid]
    case str s =>
      by_cases he : s = ""
      · subst he
        simp [navigate]
      · simp [navigate, he, hp]
  exact ⟨hbase.1, hbase.2, by rw [hbase.1], by rw [hbase.1], by rw [hbase.1],
    by rw [hbase.1]⟩

/-- Witness for C10's theorem at the invalid argument `5`. -/
theorem claim_C10_navigate_atomic_witness :
    pathValid (JSVal.number 5) = false ∧
    (navigate (JSVal.number 5) initFw).1 = initFw ∧
    ((navigate (JSVal.number 5) initFw).2).isSome = true :=
  ⟨by decide,
    (claim_C10_navigate_atomic (JSVal.number 5) initFw (by decide)).1,
    (claim_C10_navigate_atomic (JSVal.number 5) initFw (by decide)).2.1⟩

end DotJs
